import Mathlib

/-!
Verification of the recursive research orchestrator of `pchen41/deep-research`
(`src/deep-research.ts`), against its natural-language specification.

The TypeScript core is embedded shallowly:

* The external collaborators (the query-generation LLM call, the Firecrawl
  search provider, the learning-extraction LLM call, the report-writing LLM
  call and the fact-checking LLM call) are oracles collected in an `Env`
  record.  A fallible collaborator (search may time out, extraction may fail
  schema validation) returns `Option`; `none` models the thrown exception that
  the branch-level `try/catch` of `deepResearch` converts into an empty
  branch result.
* The asynchronous recursion of `deepResearch` is run on one legal
  (sequential, left-to-right) schedule: the shared accumulator arrays
  (`learnings`, `visitedUrls`, `sourceContents`) and the per-invocation
  shared `progress` record become explicitly threaded state, and every
  externally visible action (a `generateSerpQueries` call, a
  `firecrawl.search` call, an `onProgress` notification) is recorded in a
  trace of `TEvent`s.  Claims about concurrent permit counting are settled
  against a separate small-step interleaving semantics further below.
-/

/-- One generated SERP query pair, as produced by the query-generation
collaborator of `generateSerpQueries` (`deep-research.ts`, lines 67-79). -/
structure SerpQuery where
  query : String
  researchGoal : String
deriving DecidableEq

/-- One item of a Firecrawl `SearchResponse`: the item's `url` and `markdown`
fields are both optional (the code runs `compact` over them). -/
structure SearchItem where
  url : Option String
  markdown : Option String
deriving DecidableEq

/-- A Firecrawl `SearchResponse` (`result.data`). -/
structure SearchResponse where
  data : List SearchItem
deriving DecidableEq

/-- Output of the extraction collaborator inside `processSerpResult`
(`deep-research.ts`, lines 113-122). -/
structure Extraction where
  learnings : List String
  followUpQuestions : List String
deriving DecidableEq

/-- `ResearchResult` (`deep-research.ts`, lines 29-33).  The same shape is
used for the shared accumulator arrays that `deepResearch` threads through
its recursion, since a leaf branch returns exactly those three arrays. -/
structure ResearchResult where
  learnings : List String
  visitedUrls : List String
  sourceContents : List String
deriving DecidableEq

/-- The empty `ResearchResult` a failed branch resolves to
(`deep-research.ts`, lines 342-346). -/
def emptyResult : ResearchResult := ⟨[], [], []⟩

/-- `ResearchProgress` (`deep-research.ts`, lines 19-27). -/
structure ResearchProgress where
  currentDepth : Nat
  totalDepth : Nat
  currentBreadth : Nat
  totalBreadth : Nat
  currentQuery : Option String
  totalQueries : Nat
  completedQueries : Nat
deriving DecidableEq

/-- A `Partial<ResearchProgress>` as passed to `reportProgress`
(`deep-research.ts`, line 253).  A field that is `none` is absent from the
partial record; for `currentQuery` the present value may itself be
`undefined` (the code passes `serpQueries[0]?.query`), hence the nested
`Option`. -/
structure ProgressUpdate where
  currentDepth : Option Nat := none
  totalDepth : Option Nat := none
  currentBreadth : Option Nat := none
  totalBreadth : Option Nat := none
  currentQuery : Option (Option String) := none
  totalQueries : Option Nat := none
  completedQueries : Option Nat := none
deriving DecidableEq

/-- `Object.assign(progress, update)` (`deep-research.ts`, line 254): every
field present in the partial record overwrites, every absent field keeps its
previous value. -/
def applyUpdate (p : ResearchProgress) (u : ProgressUpdate) : ResearchProgress :=
  { currentDepth := u.currentDepth.getD p.currentDepth
    totalDepth := u.totalDepth.getD p.totalDepth
    currentBreadth := u.currentBreadth.getD p.currentBreadth
    totalBreadth := u.totalBreadth.getD p.totalBreadth
    currentQuery := u.currentQuery.getD p.currentQuery
    totalQueries := u.totalQueries.getD p.totalQueries
    completedQueries := u.completedQueries.getD p.completedQueries }

/-- The `z.enum(['HIGH', 'MEDIUM', 'LOW'])` severity of a flagged fact
(`deep-research.ts`, line 165). -/
inductive Severity where
  | high
  | medium
  | low
deriving DecidableEq

/-- The string the code interpolates for a severity value. -/
def severityText : Severity → String
  | .high => "HIGH"
  | .medium => "MEDIUM"
  | .low => "LOW"

/-- One flagged claim of the fact-check result (`deep-research.ts`,
lines 162-166). -/
structure UnsupportedFact where
  claim : String
  issue : String
  severity : Severity
deriving DecidableEq

/-- The fact-check collaborator's structured output (`deep-research.ts`,
lines 161-168). -/
structure FactCheckResult where
  unsupportedFacts : List UnsupportedFact
  overallAssessment : String
deriving DecidableEq

/-- The external collaborators of the core, as oracles.
`genQueries` models the `generateObject` call of `generateSerpQueries`
(its raw `res.object.queries`, before the code's `slice`), `search` the
`firecrawl.search` call, `extract` the `generateObject` call of
`processSerpResult`, `writeReport` the report-writing call and
`factCheckModel` the fact-checking call of `factCheck`.  `none` models a
thrown error (timeout or provider error). -/
structure Env where
  genQueries : String → List String → Nat → List SerpQuery
  search : String → Option SearchResponse
  extract : String → List String → Option Extraction
  writeReport : String → String → String
  factCheckModel : String → String → FactCheckResult

/-- Modelled from the spec: `trimPrompt` (imported from `./ai/providers`,
a file of this repository that is not under `src/`) truncates a string to
the given character budget (spec section 4.2 step d, section 4.5). -/
def trimPrompt (s : String) (budget : Nat) : String :=
  String.mk (s.data.take budget)

/-- `generateSerpQueries` (`deep-research.ts`, lines 46-88): asks the
collaborator for queries and returns `res.object.queries.slice(0, numQueries)`,
i.e. at most the first `numQueries` pairs. -/
def generateSerpQueries (env : Env) (query : String) (learnings : List String)
    (numQueries : Nat) : List SerpQuery :=
  (env.genQueries query learnings numQueries).take numQueries

/-- The contents extracted from a search response inside `processSerpResult`
(`deep-research.ts`, lines 101-103): `compact(result.data.map(item =>
item.markdown)).map(content => trimPrompt(content, 25_000))`. -/
def searchContents (result : SearchResponse) : List String :=
  (result.data.filterMap SearchItem.markdown).map (fun c => trimPrompt c 25000)

/-- The follow-up query string a recursing branch builds
(`deep-research.ts`, lines 307-310). -/
def nextQuery (sq : SerpQuery) (ex : Extraction) : String :=
  ("\n            Previous research goal: " ++ sq.researchGoal ++
   "\n            Follow-up research directions: " ++
   String.join (ex.followUpQuestions.map (fun fq => "\n" ++ fq)) ++
   "\n          ").trim

/-- `[...new Set(list)]`: deduplication by exact string equality keeping
first-occurrence order, as in the final merge of `deepResearch`
(`deep-research.ts`, lines 352-356). -/
def jsSet (l : List String) : List String :=
  l.foldl (fun acc x => if x ∈ acc then acc else acc ++ [x]) []

/-- The `ResultAggregator` merge of branch results (`deep-research.ts`,
lines 352-356): per-field concatenation followed by `new Set` deduplication. -/
def mergeResults (rs : List ResearchResult) : ResearchResult :=
  { learnings := jsSet (rs.map ResearchResult.learnings).flatten
    visitedUrls := jsSet (rs.map ResearchResult.visitedUrls).flatten
    sourceContents := jsSet (rs.map ResearchResult.sourceContents).flatten }

/-- One observable event of a `deepResearch` run.  `path` identifies the
invocation in the recursion tree: the top-level call is `[]`, and the child
invocation spawned by branch number `i` of invocation `p` is `p ++ [i]`.
`invoke` records a call of `generateSerpQueries` together with the
invocation's entry breadth, entry depth and the number of query pairs
actually used; `searched` records one `firecrawl.search` call (`ok` is
whether search and extraction both succeeded); `report` records one
synchronous `onProgress` notification with the full progress record it
delivered. -/
inductive TEvent where
  | invoke (path : List Nat) (breadth depth numQueries : Nat)
  | searched (path : List Nat) (query : String) (ok : Bool)
  | report (path : List Nat) (state : ResearchProgress)
deriving DecidableEq

/-- `reportProgress` (`deep-research.ts`, lines 253-256): `Object.assign`
the partial record onto the shared progress record, then synchronously
notify the sink with the full current state. -/
def reportProgress (prog : ResearchProgress) (u : ProgressUpdate) (p : List Nat) :
    ResearchProgress × TEvent :=
  (applyUpdate prog u, .report p (applyUpdate prog u))

/-- Result of one `deepResearch` invocation: the final accumulator arrays,
the merged `ResearchResult` the call returns, and the trace of events of the
whole subtree. -/
structure InvOut where
  acc : ResearchResult
  result : ResearchResult
  trace : List TEvent
deriving DecidableEq

/-- Result of one branch task: accumulators and the invocation's shared
progress record after the branch, the branch's own `ResearchResult`
contribution, and its trace. -/
structure BranchOut where
  acc : ResearchResult
  prog : ResearchProgress
  result : ResearchResult
  trace : List TEvent
deriving DecidableEq

/-- Result of running a list of branch tasks of one invocation. -/
structure BranchesOut where
  acc : ResearchResult
  prog : ResearchProgress
  results : List ResearchResult
  trace : List TEvent
deriving DecidableEq

/-- The child-invocation continuation used at depth `0`, where the recursion
guard `newDepth > 0` is false (`0 - 1` is `-1` in TypeScript, `0` here,
neither `> 0`), so it is never invoked. -/
def noChild : String → Nat → ResearchResult → List Nat → InvOut :=
  fun _ _ _ _ => ⟨emptyResult, emptyResult, []⟩

/-- The accumulator state after a successful branch appended its learnings,
source urls and truncated contents (`deep-research.ts`, lines 286-290). -/
def branchAcc (acc : ResearchResult) (result : SearchResponse) (ex : Extraction) :
    ResearchResult :=
  ⟨acc.learnings ++ ex.learnings,
   acc.visitedUrls ++ result.data.filterMap SearchItem.url,
   acc.sourceContents ++ searchContents result⟩

/-- One branch task of `deepResearch` (`deep-research.ts`, lines 272-348),
parameterised by the continuation `child` that runs the recursive
`deepResearch` call one depth lower.  A `none` from search or extraction is
the thrown error caught at lines 333-347: the branch resolves to an empty
result, appends nothing and reports nothing.  On success the branch appends
its learnings, urls and truncated contents to the shared accumulators, and
either recurses (when `depth - 1 > 0`) after reporting progress, or reports
progress and resolves with the accumulators' current contents. -/
def runBranchWith (child : String → Nat → ResearchResult → List Nat → InvOut)
    (env : Env) (breadth depth : Nat) (p : List Nat) (idx : Nat)
    (acc : ResearchResult) (prog : ResearchProgress) (sq : SerpQuery) : BranchOut :=
  match env.search sq.query with
  | none => ⟨acc, prog, emptyResult, [.searched p sq.query false]⟩
  | some result =>
    match env.extract sq.query (searchContents result) with
    | none => ⟨acc, prog, emptyResult, [.searched p sq.query false]⟩
    | some ex =>
      let acc2 := branchAcc acc result ex
      let newBreadth := (breadth + 1) / 2
      if depth - 1 > 0 then
        let rep := reportProgress prog
          { currentDepth := some (depth - 1), currentBreadth := some newBreadth,
            completedQueries := some (prog.completedQueries + 1),
            currentQuery := some (some sq.query) } p
        let out := child (nextQuery sq ex) newBreadth acc2 (p ++ [idx])
        ⟨out.acc, rep.1, out.result, .searched p sq.query true :: rep.2 :: out.trace⟩
      else
        let rep := reportProgress prog
          { currentDepth := some 0,
            completedQueries := some (prog.completedQueries + 1),
            currentQuery := some (some sq.query) } p
        ⟨acc2, rep.1, acc2, [.searched p sq.query true, rep.2]⟩

/-- The branch tasks of one invocation, run on the sequential left-to-right
schedule (one legal schedule of the `Promise.all` at `deep-research.ts`,
lines 271-350), threading the shared accumulators and the invocation's
shared progress record. -/
def runBranchesWith (child : String → Nat → ResearchResult → List Nat → InvOut)
    (env : Env) (breadth depth : Nat) (p : List Nat) :
    Nat → ResearchResult → ResearchProgress → List SerpQuery → BranchesOut
  | _, acc, prog, [] => ⟨acc, prog, [], []⟩
  | idx, acc, prog, sq :: rest =>
    let o1 := runBranchWith child env breadth depth p idx acc prog sq
    let o2 := runBranchesWith child env breadth depth p (idx + 1) o1.acc o1.prog rest
    ⟨o2.acc, o2.prog, o1.result :: o2.results, o1.trace ++ o2.trace⟩

/-- The body of one `deepResearch` invocation (`deep-research.ts`,
lines 227-357), parameterised by the child continuation: create the fresh
per-invocation progress record, generate at most `breadth` queries, report
`totalQueries`/`currentQuery`, run all branches, and merge the branch
results with `new Set` deduplication. -/
def invocationBody (child : String → Nat → ResearchResult → List Nat → InvOut)
    (env : Env) (q : String) (breadth depth : Nat) (acc : ResearchResult)
    (p : List Nat) : InvOut :=
  let prog0 : ResearchProgress := ⟨depth, depth, breadth, breadth, none, 0, 0⟩
  let sqs := generateSerpQueries env q acc.learnings breadth
  let rep := reportProgress prog0
    { currentQuery := some (sqs.head?.map SerpQuery.query),
      totalQueries := some sqs.length } p
  let o := runBranchesWith child env breadth depth p 0 acc rep.1 sqs
  ⟨o.acc, mergeResults o.results, .invoke p breadth depth sqs.length :: rep.2 :: o.trace⟩

/-- `deepResearch` (`deep-research.ts`, lines 227-357), by structural
recursion on the entry depth: an invocation at depth `d + 1` recurses (when
its branches' guard `depth - 1 > 0` holds) into invocations at depth `d`;
an invocation at depth `0` computes `newDepth = -1` in TypeScript, so its
guard is false and its child continuation is never invoked. -/
def deepResearch (env : Env) : Nat → String → Nat → ResearchResult → List Nat → InvOut
  | 0, q, breadth, acc, p => invocationBody noChild env q breadth 0 acc p
  | e + 1, q, breadth, acc, p =>
    invocationBody (fun q2 b2 a2 p2 => deepResearch env e q2 b2 a2 p2)
      env q breadth (e + 1) acc p

/-- `factCheck` (`deep-research.ts`, lines 135-172).  The boolean records
whether the fact-check collaborator was invoked: with an empty
`sourceContents` the code returns the fixed fallback before the
`generateObject` call. -/
def factCheck (env : Env) (report : String) (sourceContents : List String) :
    FactCheckResult × Bool :=
  if sourceContents.isEmpty then
    (⟨[], "Unable to fact check - no source content available"⟩, false)
  else
    let contentsString := trimPrompt
      (String.intercalate "\n"
        (sourceContents.map (fun c => "<content>\n" ++ c ++ "\n</content>"))) 200000
    (env.factCheckModel report contentsString, true)

/-- `writeFinalReport` (`deep-research.ts`, lines 174-225).  The boolean is
`factCheck`'s collaborator-called flag. -/
def writeFinalReport (env : Env) (prompt : String)
    (learnings visitedUrls sourceContents : List String) : String × Bool :=
  let learningsString := trimPrompt
    (String.intercalate "\n"
      (learnings.map (fun l => "<learning>\n" ++ l ++ "\n</learning>"))) 150000
  let body := env.writeReport prompt learningsString
  let fc := factCheck env body sourceContents
  let factCheckSection := "\n\n## Fact Check\n\n" ++ fc.1.overallAssessment ++ "\n\n" ++
    (if fc.1.unsupportedFacts.length > 0 then
      "### Potential Issues\n\n" ++
        String.intercalate "\n\n"
          (fc.1.unsupportedFacts.map (fun fact =>
            "**[" ++ severityText fact.severity ++ "]** " ++ fact.claim ++
            "\n- " ++ fact.issue))
    else
      "### No Factual Issues Found\n\nAll claims in the report appear to be well-supported by the source material.")
  let urlsSection := "\n\n## Sources\n\n" ++
    String.intercalate "\n" (visitedUrls.map (fun url => "- " ++ url))
  (body ++ factCheckSection ++ urlsSection, fc.2)

/-! ## Interleaving semantics of the concurrency gate

`deepResearch` creates a fresh `p-limit` gate of capacity `ConcurrencyLimit`
inside every invocation (`deep-research.ts`, line 269: `const limit =
pLimit(ConcurrencyLimit);` is in the body of `deepResearch`), and wraps each
branch task in it, so a branch holds its invocation's permit from the moment
it starts running until its whole subtree (including the awaited recursive
`deepResearch` call) resolves.  The `p-limit` library itself is not part of
this repository; its admission behaviour is modelled from the spec's
ConcurrencyGate contract (section 4.1): a task may start only while fewer
than the capacity of *its own gate* are running.  The query generator is
taken to return exactly the requested number of queries (the spec's
instrumentation scenario), so an invocation of breadth `b` has `b` tasks. -/

/-- Capacity of one gate (`deep-research.ts`, line 36). -/
def ConcurrencyLimit : Nat := 2

/-- The lifecycle of one branch task.  `waiting`: queued in its invocation's
gate; `searching`: holds a permit, performing search/extraction; `recursing
cb cd cts`: still holds its permit while the child invocation (breadth `cb`,
depth `cd`, tasks `cts`) it spawned runs; `finished`: resolved, permit
released. -/
inductive BTask where
  | waiting : BTask
  | searching : BTask
  | recursing : Nat → Nat → List BTask → BTask
  | finished : BTask

/-- Whether a task currently holds a permit of its own invocation's gate. -/
def BTask.holdsPermit : BTask → Bool
  | .waiting => false
  | .searching => true
  | .recursing _ _ _ => true
  | .finished => false

/-- Number of permits of this invocation's gate currently held. -/
def activeCount (ts : List BTask) : Nat :=
  (ts.filter BTask.holdsPermit).length

mutual

/-- Permits held in the whole subtree under one task. -/
def BTask.permits : BTask → Nat
  | .waiting => 0
  | .searching => 1
  | .recursing _ _ cts => 1 + permitsList cts
  | .finished => 0

/-- Permits held in the whole subtree under a task list. -/
def permitsList : List BTask → Nat
  | [] => 0
  | t :: ts => t.permits + permitsList ts

end

/-- All tasks of an invocation resolved: the join point of `Promise.all`. -/
def tasksDone (ts : List BTask) : Bool :=
  ts.all fun t => match t with
    | .finished => true
    | _ => false

/-- A whole invocation state: entry breadth, entry depth, branch tasks. -/
abbrev GState := Nat × Nat × List BTask

/-- Permits simultaneously held across the entire recursion tree. -/
def treePermits : GState → Nat
  | (_, _, ts) => permitsList ts

/-- One interleaving step of the recursion tree.  `start` admits a waiting
task when its own invocation's gate has a free permit; `finishBranch`
resolves a running task (leaf success, or the caught failure path, both of
which release the permit); `recurse` lets a running task whose guard
`depth - 1 > 0` holds spawn its child invocation with breadth
`ceil(breadth / 2)` and depth `depth - 1` and a fresh gate; `childStep`
interleaves a step of a child invocation; `childDone` resolves a recursing
task once every task of its child invocation resolved. -/
inductive GStep : GState → GState → Prop where
  | start (b d : Nat) (ts : List BTask) (i : Nat)
      (hw : ts.get? i = some .waiting)
      (hcap : activeCount ts < ConcurrencyLimit) :
      GStep (b, d, ts) (b, d, ts.set i .searching)
  | finishBranch (b d : Nat) (ts : List BTask) (i : Nat)
      (hs : ts.get? i = some .searching) :
      GStep (b, d, ts) (b, d, ts.set i .finished)
  | recurse (b d : Nat) (ts : List BTask) (i : Nat)
      (hs : ts.get? i = some .searching) (hd : d - 1 > 0) :
      GStep (b, d, ts)
        (b, d, ts.set i (.recursing ((b + 1) / 2) (d - 1)
          (List.replicate ((b + 1) / 2) .waiting)))
  | childStep (b d : Nat) (ts : List BTask) (i : Nat)
      (cb cd : Nat) (cts cts2 : List BTask)
      (hr : ts.get? i = some (.recursing cb cd cts))
      (hstep : GStep (cb, cd, cts) (cb, cd, cts2)) :
      GStep (b, d, ts) (b, d, ts.set i (.recursing cb cd cts2))
  | childDone (b d : Nat) (ts : List BTask) (i : Nat)
      (cb cd : Nat) (cts : List BTask)
      (hr : ts.get? i = some (.recursing cb cd cts))
      (hdone : tasksDone cts = true) :
      GStep (b, d, ts) (b, d, ts.set i .finished)

/-- Reachability of tree states. -/
def GReach : GState → GState → Prop :=
  Relation.ReflTransGen GStep

/-- Initial state of one top-level call: all `b` branch tasks queued. -/
def initState (b d : Nat) : GState :=
  (b, d, List.replicate b .waiting)

mutual

/-- Every invocation nested under this task holds at most `ConcurrencyLimit`
of its own permits. -/
def BTask.gateOk : BTask → Bool
  | .recursing _ _ cts => decide (activeCount cts ≤ ConcurrencyLimit) && tasksGateOk cts
  | _ => true

/-- `BTask.gateOk` over a task list. -/
def tasksGateOk : List BTask → Bool
  | [] => true
  | t :: ts => t.gateOk && tasksGateOk ts

end

/-- Every invocation of the tree holds at most `ConcurrencyLimit` of its own
gate's permits. -/
def stateOk : GState → Bool
  | (_, _, ts) => decide (activeCount ts ≤ ConcurrencyLimit) && tasksGateOk ts

/-! ## Properties of the `new Set` deduplication and the merge -/

lemma mem_jsSetFold : ∀ (l acc : List String) (x : String),
    x ∈ l.foldl (fun a y => if y ∈ a then a else a ++ [y]) acc ↔ x ∈ acc ∨ x ∈ l := by
  intro l
  induction l with
  | nil => intro acc x; simp
  | cons y t ih =>
    intro acc x
    simp only [List.foldl_cons]
    rw [ih]
    by_cases hy : y ∈ acc
    · simp only [if_pos hy, List.mem_cons]
      constructor
      · rintro (h | h)
        · exact Or.inl h
        · exact Or.inr (Or.inr h)
      · rintro (h | h | h)
        · exact Or.inl h
        · exact Or.inl (by rw [h]; exact hy)
        · exact Or.inr h
    · simp only [if_neg hy, List.mem_append, List.mem_singleton, List.mem_cons]
      tauto

lemma mem_jsSet (l : List String) (x : String) : x ∈ jsSet l ↔ x ∈ l := by
  unfold jsSet
  rw [mem_jsSetFold]
  simp

lemma jsSetFold_of_subset : ∀ (l acc : List String), (∀ x ∈ l, x ∈ acc) →
    l.foldl (fun a y => if y ∈ a then a else a ++ [y]) acc = acc := by
  intro l
  induction l with
  | nil => intro acc _; rfl
  | cons y t ih =>
    intro acc h
    simp only [List.foldl_cons, if_pos (h y (by simp))]
    exact ih acc fun x hx => h x (by simp [hx])

lemma jsSet_append_self (l : List String) : jsSet (l ++ l) = jsSet l := by
  unfold jsSet
  rw [List.foldl_append]
  exact jsSetFold_of_subset l _ (fun x hx => (mem_jsSetFold l [] x).mpr (Or.inr hx))

/-- C4: the merge of branch results (`deep-research.ts`, lines 352-356) is a
per-field set union under exact string equality that is commutative and
idempotent: `merge [A, B]` equals `merge [B, A]` as sets in every field, and
`merge [A, A]` equals `merge [A]`. -/
theorem mergeResults_comm_idem : ∀ A B : ResearchResult,
    (∀ x, x ∈ (mergeResults [A, B]).learnings ↔ x ∈ (mergeResults [B, A]).learnings) ∧
    (∀ x, x ∈ (mergeResults [A, B]).visitedUrls ↔ x ∈ (mergeResults [B, A]).visitedUrls) ∧
    (∀ x, x ∈ (mergeResults [A, B]).sourceContents ↔ x ∈ (mergeResults [B, A]).sourceContents) ∧
    mergeResults [A, A] = mergeResults [A] := by
  intro A B
  refine ⟨?_, ?_, ?_, ?_⟩
  · intro x; simp [mergeResults, mem_jsSet, List.mem_append]; tauto
  · intro x; simp [mergeResults, mem_jsSet, List.mem_append]; tauto
  · intro x; simp [mergeResults, mem_jsSet, List.mem_append]; tauto
  · simp [mergeResults, jsSet_append_self]

/-! ## C7: fact-check fallback on empty source contents -/

/-- C7: with an empty aggregated `sourceContents` the fact-check collaborator
is not called (flag `false`) and the result is the fixed fallback: an empty
unsupported-facts list and the fixed "unable to fact check" assessment
(`deep-research.ts`, lines 142-148); consequently `writeFinalReport` with
empty `sourceContents` also never calls it. -/
theorem factCheck_empty_fallback : ∀ (env : Env) (report : String),
    factCheck env report [] =
      (⟨[], "Unable to fact check - no source content available"⟩, false) ∧
    ∀ (prompt : String) (learnings visitedUrls : List String),
      (writeFinalReport env prompt learnings visitedUrls []).2 = false := by
  intro env report
  exact ⟨rfl, fun _ _ _ => rfl⟩

/-! ## C9: partial progress updates -/

/-- C9: `reportProgress` (`deep-research.ts`, lines 253-256) overwrites
exactly the fields present in the partial record, leaves every other field
at its previous value, and synchronously hands the sink the full updated
state. -/
theorem reportProgress_frame : ∀ (prog : ResearchProgress) (u : ProgressUpdate) (p : List Nat),
    ((reportProgress prog u p).2 = TEvent.report p (reportProgress prog u p).1) ∧
    (∀ v, u.currentDepth = some v → (applyUpdate prog u).currentDepth = v) ∧
    (u.currentDepth = none → (applyUpdate prog u).currentDepth = prog.currentDepth) ∧
    (∀ v, u.totalDepth = some v → (applyUpdate prog u).totalDepth = v) ∧
    (u.totalDepth = none → (applyUpdate prog u).totalDepth = prog.totalDepth) ∧
    (∀ v, u.currentBreadth = some v → (applyUpdate prog u).currentBreadth = v) ∧
    (u.currentBreadth = none → (applyUpdate prog u).currentBreadth = prog.currentBreadth) ∧
    (∀ v, u.totalBreadth = some v → (applyUpdate prog u).totalBreadth = v) ∧
    (u.totalBreadth = none → (applyUpdate prog u).totalBreadth = prog.totalBreadth) ∧
    (∀ v, u.currentQuery = some v → (applyUpdate prog u).currentQuery = v) ∧
    (u.currentQuery = none → (applyUpdate prog u).currentQuery = prog.currentQuery) ∧
    (∀ v, u.totalQueries = some v → (applyUpdate prog u).totalQueries = v) ∧
    (u.totalQueries = none → (applyUpdate prog u).totalQueries = prog.totalQueries) ∧
    (∀ v, u.completedQueries = some v → (applyUpdate prog u).completedQueries = v) ∧
    (u.completedQueries = none → (applyUpdate prog u).completedQueries = prog.completedQueries) := by
  intro prog u p
  refine ⟨rfl, ?_, ?_, ?_, ?_, ?_, ?_, ?_, ?_, ?_, ?_, ?_, ?_, ?_, ?_⟩ <;>
    first
      | (intro v h; simp [applyUpdate, h])
      | (intro h; simp [applyUpdate, h])

def progW : ResearchProgress := ⟨3, 3, 4, 4, none, 5, 6⟩

def updW : ProgressUpdate := { completedQueries := some 7 }

/-- Witness for C9 at a concrete progress record and partial update. -/
theorem reportProgress_frame_witness :
    (applyUpdate progW updW).completedQueries = 7 ∧
    (applyUpdate progW updW).totalDepth = progW.totalDepth := by
  obtain ⟨-, -, -, -, h5, -, -, -, -, -, -, -, -, h14, -⟩ :=
    reportProgress_frame progW updW []
  exact ⟨h14 7 rfl, h5 rfl⟩

/-! ## C8: the assembled report -/

/-- The fixed no-factual-issues notice (`deep-research.ts`, line 218). -/
def noIssuesNotice : String :=
  "### No Factual Issues Found\n\nAll claims in the report appear to be well-supported by the source material."

/-- Reconstruction of the fact-check section following the claim's words:
the overall assessment, then either the flagged-claims bullets in the format
the claim states, "**[SEVERITY]** claim — issue" (em dash, issue on the same
line), or the fixed notice. -/
def claimFactCheckSection (fc : FactCheckResult) : String :=
  "\n\n## Fact Check\n\n" ++ fc.overallAssessment ++ "\n\n" ++
  (if fc.unsupportedFacts.length > 0 then
    "### Potential Issues\n\n" ++
      String.intercalate "\n\n"
        (fc.unsupportedFacts.map (fun fact =>
          "**[" ++ severityText fact.severity ++ "]** " ++ fact.claim ++ " — " ++ fact.issue))
  else noIssuesNotice)

/-- Reconstruction of the fact-check section with the amended bullet format,
the one the code produces (`deep-research.ts`, line 215): "**[SEVERITY]**
claim" followed by "- issue" on the next line. -/
def codeFactCheckSection (fc : FactCheckResult) : String :=
  "\n\n## Fact Check\n\n" ++ fc.overallAssessment ++ "\n\n" ++
  (if fc.unsupportedFacts.length > 0 then
    "### Potential Issues\n\n" ++
      String.intercalate "\n\n"
        (fc.unsupportedFacts.map (fun fact =>
          "**[" ++ severityText fact.severity ++ "]** " ++ fact.claim ++ "\n- " ++ fact.issue))
  else noIssuesNotice)

/-- Reconstruction of the sources section (`deep-research.ts`, line 222):
every visited URL as a bullet under "## Sources". -/
def sourcesSection (visitedUrls : List String) : String :=
  "\n\n## Sources\n\n" ++ String.intercalate "\n" (visitedUrls.map (fun url => "- " ++ url))

def c8env : Env :=
  { genQueries := fun _ _ _ => []
    search := fun _ => none
    extract := fun _ _ => none
    writeReport := fun _ _ => "BODY"
    factCheckModel := fun _ _ => ⟨[⟨"c", "i", .high⟩], "A"⟩ }

/-- Counterexample to C8 as stated: with one flagged fact of severity HIGH,
claim "c" and issue "i", the assembled report is not the concatenation that
uses the claim's bullet format "**[SEVERITY]** claim — issue"; the code puts
the issue on a following "- " line instead of after an em dash. -/
theorem writeFinalReport_claim_format_false :
    (writeFinalReport c8env "P" ["L"] ["u"] ["S"]).1 ≠
      "BODY" ++ claimFactCheckSection ⟨[⟨"c", "i", Severity.high⟩], "A"⟩ ++
        sourcesSection ["u"] := by
  decide

/-- C8 amended: the assembled report is the concatenation of the report body,
the "## Fact Check" section (assessment, then either the flagged-claims
bullets in the format "**[SEVERITY]** claim" followed by "- issue" on the
next line, or the fixed notice), and the "## Sources" section with one
bullet per visited URL, in that order; every severity renders as one of
HIGH, MEDIUM, LOW. -/
theorem writeFinalReport_sections : ∀ (env : Env) (prompt : String)
    (learnings visitedUrls sourceContents : List String),
    ((writeFinalReport env prompt learnings visitedUrls sourceContents).1 =
      env.writeReport prompt
        (trimPrompt (String.intercalate "\n"
          (learnings.map (fun l => "<learning>\n" ++ l ++ "\n</learning>"))) 150000) ++
      codeFactCheckSection
        (factCheck env
          (env.writeReport prompt
            (trimPrompt (String.intercalate "\n"
              (learnings.map (fun l => "<learning>\n" ++ l ++ "\n</learning>"))) 150000))
          sourceContents).1 ++
      sourcesSection visitedUrls) ∧
    (∀ sev, severityText sev = "HIGH" ∨ severityText sev = "MEDIUM" ∨ severityText sev = "LOW") := by
  intro env prompt l u s
  refine ⟨rfl, ?_⟩
  intro sev
  cases sev <;> simp [severityText]

/-! ## Unfolding equations and trace structure of the embedding -/

lemma runBranchesWith_nil (child : String → Nat → ResearchResult → List Nat → InvOut)
    (env : Env) (b dep : Nat) (p : List Nat) (idx : Nat)
    (acc : ResearchResult) (prog : ResearchProgress) :
    runBranchesWith child env b dep p idx acc prog [] = ⟨acc, prog, [], []⟩ := rfl

lemma runBranchesWith_cons (child : String → Nat → ResearchResult → List Nat → InvOut)
    (env : Env) (b dep : Nat) (p : List Nat) (idx : Nat)
    (acc : ResearchResult) (prog : ResearchProgress) (sq : SerpQuery)
    (rest : List SerpQuery) :
    runBranchesWith child env b dep p idx acc prog (sq :: rest) =
      ⟨(runBranchesWith child env b dep p (idx + 1)
          (runBranchWith child env b dep p idx acc prog sq).acc
          (runBranchWith child env b dep p idx acc prog sq).prog rest).acc,
       (runBranchesWith child env b dep p (idx + 1)
          (runBranchWith child env b dep p idx acc prog sq).acc
          (runBranchWith child env b dep p idx acc prog sq).prog rest).prog,
       (runBranchWith child env b dep p idx acc prog sq).result ::
         (runBranchesWith child env b dep p (idx + 1)
            (runBranchWith child env b dep p idx acc prog sq).acc
            (runBranchWith child env b dep p idx acc prog sq).prog rest).results,
       (runBranchWith child env b dep p idx acc prog sq).trace ++
         (runBranchesWith child env b dep p (idx + 1)
            (runBranchWith child env b dep p idx acc prog sq).acc
            (runBranchWith child env b dep p idx acc prog sq).prog rest).trace⟩ := rfl

/-- The per-invocation progress record right after the first
`reportProgress` call (`deep-research.ts`, lines 244-267). -/
def initialProg (b dep : Nat) (sqs : List SerpQuery) : ResearchProgress :=
  applyUpdate ⟨dep, dep, b, b, none, 0, 0⟩
    ⟨none, none, none, none, some (sqs.head?.map SerpQuery.query), some sqs.length, none⟩

lemma invocationBody_def (child : String → Nat → ResearchResult → List Nat → InvOut)
    (env : Env) (q : String) (b dep : Nat) (acc : ResearchResult) (p : List Nat) :
    invocationBody child env q b dep acc p =
      ⟨(runBranchesWith child env b dep p 0 acc
          (initialProg b dep (generateSerpQueries env q acc.learnings b))
          (generateSerpQueries env q acc.learnings b)).acc,
       mergeResults (runBranchesWith child env b dep p 0 acc
          (initialProg b dep (generateSerpQueries env q acc.learnings b))
          (generateSerpQueries env q acc.learnings b)).results,
       TEvent.invoke p b dep (generateSerpQueries env q acc.learnings b).length ::
         TEvent.report p (initialProg b dep (generateSerpQueries env q acc.learnings b)) ::
         (runBranchesWith child env b dep p 0 acc
            (initialProg b dep (generateSerpQueries env q acc.learnings b))
            (generateSerpQueries env q acc.learnings b)).trace⟩ := rfl

lemma deepResearch_zero (env : Env) (q : String) (b : Nat) (acc : ResearchResult)
    (p : List Nat) :
    deepResearch env 0 q b acc p = invocationBody noChild env q b 0 acc p := rfl

lemma deepResearch_succ (env : Env) (e : Nat) (q : String) (b : Nat)
    (acc : ResearchResult) (p : List Nat) :
    deepResearch env (e + 1) q b acc p =
      invocationBody (fun q2 b2 a2 p2 => deepResearch env e q2 b2 a2 p2)
        env q b (e + 1) acc p := rfl

/-- The recursing-branch progress record (`deep-research.ts`, lines 300-305). -/
def recurseUpdate (b dep : Nat) (sq : SerpQuery) (prog : ResearchProgress) : ProgressUpdate :=
  ⟨some (dep - 1), none, some ((b + 1) / 2), none, some (some sq.query), none,
   some (prog.completedQueries + 1)⟩

/-- The leaf-branch progress record (`deep-research.ts`, lines 322-326). -/
def leafUpdate (sq : SerpQuery) (prog : ResearchProgress) : ProgressUpdate :=
  ⟨some 0, none, none, none, some (some sq.query), none,
   some (prog.completedQueries + 1)⟩

lemma runBranchWith_search_none (child : String → Nat → ResearchResult → List Nat → InvOut)
    (env : Env) (b dep : Nat) (p : List Nat) (idx : Nat)
    (acc : ResearchResult) (prog : ResearchProgress) (sq : SerpQuery)
    (h : env.search sq.query = none) :
    runBranchWith child env b dep p idx acc prog sq =
      ⟨acc, prog, emptyResult, [.searched p sq.query false]⟩ := by
  simp only [runBranchWith, h]

lemma runBranchWith_extract_none (child : String → Nat → ResearchResult → List Nat → InvOut)
    (env : Env) (b dep : Nat) (p : List Nat) (idx : Nat)
    (acc : ResearchResult) (prog : ResearchProgress) (sq : SerpQuery)
    (r : SearchResponse)
    (h1 : env.search sq.query = some r)
    (h2 : env.extract sq.query (searchContents r) = none) :
    runBranchWith child env b dep p idx acc prog sq =
      ⟨acc, prog, emptyResult, [.searched p sq.query false]⟩ := by
  simp only [runBranchWith, h1, h2]

lemma runBranchWith_recurse (child : String → Nat → ResearchResult → List Nat → InvOut)
    (env : Env) (b dep : Nat) (p : List Nat) (idx : Nat)
    (acc : ResearchResult) (prog : ResearchProgress) (sq : SerpQuery)
    (r : SearchResponse) (ex : Extraction)
    (h1 : env.search sq.query = some r)
    (h2 : env.extract sq.query (searchContents r) = some ex)
    (hg : dep - 1 > 0) :
    runBranchWith child env b dep p idx acc prog sq =
      ⟨(child (nextQuery sq ex) ((b + 1) / 2) (branchAcc acc r ex) (p ++ [idx])).acc,
       applyUpdate prog (recurseUpdate b dep sq prog),
       (child (nextQuery sq ex) ((b + 1) / 2) (branchAcc acc r ex) (p ++ [idx])).result,
       .searched p sq.query true ::
         .report p (applyUpdate prog (recurseUpdate b dep sq prog)) ::
         (child (nextQuery sq ex) ((b + 1) / 2) (branchAcc acc r ex) (p ++ [idx])).trace⟩ := by
  simp only [runBranchWith, h1, h2, hg, if_true, reportProgress, recurseUpdate]

lemma runBranchWith_leaf (child : String → Nat → ResearchResult → List Nat → InvOut)
    (env : Env) (b dep : Nat) (p : List Nat) (idx : Nat)
    (acc : ResearchResult) (prog : ResearchProgress) (sq : SerpQuery)
    (r : SearchResponse) (ex : Extraction)
    (h1 : env.search sq.query = some r)
    (h2 : env.extract sq.query (searchContents r) = some ex)
    (hg : ¬ dep - 1 > 0) :
    runBranchWith child env b dep p idx acc prog sq =
      ⟨branchAcc acc r ex,
       applyUpdate prog (leafUpdate sq prog),
       branchAcc acc r ex,
       [.searched p sq.query true,
        .report p (applyUpdate prog (leafUpdate sq prog))]⟩ := by
  simp only [runBranchWith, h1, h2, hg, if_false, reportProgress, leafUpdate]

/-- Case analysis of one branch task: it fails in search, fails in
extraction, succeeds and recurses, or succeeds as a leaf. -/
lemma runBranchWith_trace_shape (child : String → Nat → ResearchResult → List Nat → InvOut)
    (env : Env) (b dep : Nat) (p : List Nat) (idx : Nat)
    (acc : ResearchResult) (prog : ResearchProgress) (sq : SerpQuery) :
    (env.search sq.query = none ∧
      runBranchWith child env b dep p idx acc prog sq =
        ⟨acc, prog, emptyResult, [.searched p sq.query false]⟩) ∨
    (∃ r, env.search sq.query = some r ∧
      env.extract sq.query (searchContents r) = none ∧
      runBranchWith child env b dep p idx acc prog sq =
        ⟨acc, prog, emptyResult, [.searched p sq.query false]⟩) ∨
    (∃ r ex, env.search sq.query = some r ∧
      env.extract sq.query (searchContents r) = some ex ∧
      dep - 1 > 0 ∧
      runBranchWith child env b dep p idx acc prog sq =
        ⟨(child (nextQuery sq ex) ((b + 1) / 2) (branchAcc acc r ex) (p ++ [idx])).acc,
         applyUpdate prog (recurseUpdate b dep sq prog),
         (child (nextQuery sq ex) ((b + 1) / 2) (branchAcc acc r ex) (p ++ [idx])).result,
         .searched p sq.query true ::
           .report p (applyUpdate prog (recurseUpdate b dep sq prog)) ::
           (child (nextQuery sq ex) ((b + 1) / 2) (branchAcc acc r ex) (p ++ [idx])).trace⟩) ∨
    (∃ r ex, env.search sq.query = some r ∧
      env.extract sq.query (searchContents r) = some ex ∧
      ¬ dep - 1 > 0 ∧
      runBranchWith child env b dep p idx acc prog sq =
        ⟨branchAcc acc r ex,
         applyUpdate prog (leafUpdate sq prog),
         branchAcc acc r ex,
         [.searched p sq.query true,
          .report p (applyUpdate prog (leafUpdate sq prog))]⟩) := by
  rcases Option.eq_none_or_eq_some (env.search sq.query) with hsr | ⟨r, hsr⟩
  · exact Or.inl ⟨hsr, runBranchWith_search_none child env b dep p idx acc prog sq hsr⟩
  · rcases Option.eq_none_or_eq_some (env.extract sq.query (searchContents r)) with hx | ⟨ex, hx⟩
    · exact Or.inr (Or.inl ⟨r, hsr, hx,
        runBranchWith_extract_none child env b dep p idx acc prog sq r hsr hx⟩)
    · by_cases hg : dep - 1 > 0
      · exact Or.inr (Or.inr (Or.inl ⟨r, ex, hsr, hx, hg,
          runBranchWith_recurse child env b dep p idx acc prog sq r ex hsr hx hg⟩))
      · exact Or.inr (Or.inr (Or.inr ⟨r, ex, hsr, hx, hg,
          runBranchWith_leaf child env b dep p idx acc prog sq r ex hsr hx hg⟩))

lemma mem_runBranchWith_trace (child : String → Nat → ResearchResult → List Nat → InvOut)
    (env : Env) (b dep : Nat) (p : List Nat) (idx : Nat)
    (acc : ResearchResult) (prog : ResearchProgress) (sq : SerpQuery)
    (P : TEvent → Prop)
    (hs : ∀ s ok, P (.searched p s ok))
    (hr : ∀ st, P (.report p st))
    (hc : dep - 1 > 0 → ∀ q2 a2,
      ∀ ev ∈ (child q2 ((b + 1) / 2) a2 (p ++ [idx])).trace, P ev) :
    ∀ ev ∈ (runBranchWith child env b dep p idx acc prog sq).trace, P ev := by
  intro ev hev
  rcases runBranchWith_trace_shape child env b dep p idx acc prog sq with
    ⟨h1, heq⟩ | ⟨r, h1, h2, heq⟩ | ⟨r, ex, h1, h2, hg, heq⟩ | ⟨r, ex, h1, h2, hg, heq⟩ <;>
      rw [heq] at hev
  · simp only [List.mem_singleton] at hev
    exact hev ▸ hs sq.query false
  · simp only [List.mem_singleton] at hev
    exact hev ▸ hs sq.query false
  · rcases List.mem_cons.mp hev with h | hev2
    · exact h ▸ hs sq.query true
    rcases List.mem_cons.mp hev2 with h | hev3
    · exact h ▸ hr _
    · exact hc hg _ _ ev hev3
  · rcases List.mem_cons.mp hev with h | hev2
    · exact h ▸ hs sq.query true
    · simp only [List.mem_singleton] at hev2
      exact hev2 ▸ hr _

lemma mem_runBranchesWith_trace (child : String → Nat → ResearchResult → List Nat → InvOut)
    (env : Env) (b dep : Nat) (p : List Nat) (P : TEvent → Prop)
    (hs : ∀ s ok, P (.searched p s ok))
    (hr : ∀ st, P (.report p st))
    (hc : dep - 1 > 0 → ∀ q2 a2 i,
      ∀ ev ∈ (child q2 ((b + 1) / 2) a2 (p ++ [i])).trace, P ev) :
    ∀ (sqs : List SerpQuery) (idx : Nat) (acc : ResearchResult) (prog : ResearchProgress),
      ∀ ev ∈ (runBranchesWith child env b dep p idx acc prog sqs).trace, P ev := by
  intro sqs
  induction sqs with
  | nil =>
    intro idx acc prog ev hev
    rw [runBranchesWith_nil] at hev
    simp at hev
  | cons sq rest ih =>
    intro idx acc prog ev hev
    rw [runBranchesWith_cons] at hev
    rcases List.mem_append.mp hev with h | h
    · exact mem_runBranchWith_trace child env b dep p idx acc prog sq P hs hr
        (fun hg q2 a2 => hc hg q2 a2 idx) ev h
    · exact ih (idx + 1) _ _ ev h

lemma mem_invocationBody_trace (child : String → Nat → ResearchResult → List Nat → InvOut)
    (env : Env) (q : String) (b dep : Nat) (acc : ResearchResult) (p : List Nat)
    (P : TEvent → Prop)
    (hi : P (.invoke p b dep (generateSerpQueries env q acc.learnings b).length))
    (hr : ∀ st, P (.report p st))
    (hs : ∀ s ok, P (.searched p s ok))
    (hc : dep - 1 > 0 → ∀ q2 a2 i,
      ∀ ev ∈ (child q2 ((b + 1) / 2) a2 (p ++ [i])).trace, P ev) :
    ∀ ev ∈ (invocationBody child env q b dep acc p).trace, P ev := by
  intro ev hev
  rw [invocationBody_def] at hev
  rcases List.mem_cons.mp hev with h | hev2
  · exact h ▸ hi
  rcases List.mem_cons.mp hev2 with h | hev3
  · exact h ▸ hr _
  · exact mem_runBranchesWith_trace child env b dep p P hs hr hc _ 0 acc _ ev hev3

/-! ## C3: branch failure isolation -/

lemma flatten_replicate_nil : ∀ n : Nat, (List.replicate n ([] : List String)).flatten = [] := by
  intro n
  induction n with
  | zero => rfl
  | succ m ih => simp [List.replicate_succ, ih]

lemma mergeResults_replicate_empty (n : Nat) :
    mergeResults (List.replicate n emptyResult) = emptyResult := by
  simp [mergeResults, emptyResult, List.map_replicate, flatten_replicate_nil, jsSet]

lemma runBranchesWith_allfail (child : String → Nat → ResearchResult → List Nat → InvOut)
    (env : Env) (b dep : Nat) (p : List Nat)
    (hf : ∀ s, env.search s = none) :
    ∀ (sqs : List SerpQuery) (idx : Nat) (acc : ResearchResult) (prog : ResearchProgress),
      (runBranchesWith child env b dep p idx acc prog sqs).results =
        List.replicate sqs.length emptyResult := by
  intro sqs
  induction sqs with
  | nil => intro idx acc prog; rfl
  | cons sq rest ih =>
    intro idx acc prog
    rw [runBranchesWith_cons,
      runBranchWith_search_none child env b dep p idx acc prog sq (hf sq.query)]
    simp [List.replicate_succ, ih]

lemma deepResearch_allfail (env : Env) (hf : ∀ s, env.search s = none) :
    ∀ (d : Nat) (q : String) (b : Nat) (acc : ResearchResult) (p : List Nat),
      (deepResearch env d q b acc p).result = emptyResult := by
  intro d q b acc p
  cases d with
  | zero =>
    rw [deepResearch_zero, invocationBody_def]
    simp [runBranchesWith_allfail noChild env b 0 p hf, mergeResults_replicate_empty]
  | succ e =>
    rw [deepResearch_succ, invocationBody_def]
    simp [runBranchesWith_allfail _ env b (e + 1) p hf, mergeResults_replicate_empty]

def c3env : Env :=
  { genQueries := fun _ _ _ => [⟨"Q1", "G1"⟩, ⟨"Q2", "G2"⟩]
    search := fun s => if s = "Q1" then some ⟨[⟨some "u1", some "c1"⟩]⟩ else none
    extract := fun _ _ => some ⟨["L1"], []⟩
    writeReport := fun _ _ => ""
    factCheckModel := fun _ _ => ⟨[], ""⟩ }

set_option maxRecDepth 2000 in
/-- C3: a branch whose search or extraction fails resolves to the empty
`ResearchResult` without touching the shared accumulators or the progress
record; a call in which every branch's search fails still returns (the
embedding is total) with the empty result; and on the spec's end-to-end
scenario (breadth 2, depth 1, Q1 succeeds with url `u1` and content `c1`,
Q2 times out) the merged result holds exactly the surviving branch's
contributions. -/
theorem branch_failure_isolation :
    (∀ (env : Env) (child : String → Nat → ResearchResult → List Nat → InvOut)
      (b dep : Nat) (p : List Nat) (idx : Nat)
      (acc : ResearchResult) (prog : ResearchProgress) (sq : SerpQuery),
      env.search sq.query = none →
      runBranchWith child env b dep p idx acc prog sq =
        ⟨acc, prog, emptyResult, [.searched p sq.query false]⟩) ∧
    (∀ (env : Env) (child : String → Nat → ResearchResult → List Nat → InvOut)
      (b dep : Nat) (p : List Nat) (idx : Nat)
      (acc : ResearchResult) (prog : ResearchProgress) (sq : SerpQuery)
      (r : SearchResponse),
      env.search sq.query = some r →
      env.extract sq.query (searchContents r) = none →
      runBranchWith child env b dep p idx acc prog sq =
        ⟨acc, prog, emptyResult, [.searched p sq.query false]⟩) ∧
    (∀ (env : Env), (∀ s, env.search s = none) →
      ∀ (d : Nat) (q : String) (b : Nat) (acc : ResearchResult) (p : List Nat),
      (deepResearch env d q b acc p).result = emptyResult) ∧
    (deepResearch c3env 1 "T" 2 emptyResult []).result = ⟨["L1"], ["u1"], ["c1"]⟩ := by
  refine ⟨?_, ?_, ?_, ?_⟩
  · intro env child b dep p idx acc prog sq h
    exact runBranchWith_search_none child env b dep p idx acc prog sq h
  · intro env child b dep p idx acc prog sq r h1 h2
    exact runBranchWith_extract_none child env b dep p idx acc prog sq r h1 h2
  · intro env hf d q b acc p
    exact deepResearch_allfail env hf d q b acc p
  · decide

def c3failEnv : Env :=
  { genQueries := fun _ _ _ => [⟨"Q", "G"⟩]
    search := fun _ => none
    extract := fun _ _ => none
    writeReport := fun _ _ => ""
    factCheckModel := fun _ _ => ⟨[], ""⟩ }

/-- Witness for C3: with an environment whose every search fails, a call of
breadth 3 and depth 2 still returns the empty result. -/
theorem branch_failure_isolation_witness :
    (deepResearch c3failEnv 2 "T" 3 emptyResult []).result = emptyResult :=
  branch_failure_isolation.2.2.1 c3failEnv (fun _ => rfl) 2 "T" 3 emptyResult []

/-! ## C10: at most `breadth` query pairs are processed -/

lemma generateSerpQueries_length_le (env : Env) (q : String) (l : List String) (n : Nat) :
    (generateSerpQueries env q l n).length ≤ n := by
  simp [generateSerpQueries, List.length_take]

lemma invoke_numQueries_le (env : Env) : ∀ (d : Nat) (q : String) (b : Nat)
    (acc : ResearchResult) (p : List Nat),
    ∀ ev ∈ (deepResearch env d q b acc p).trace,
      ∀ p2 b2 d2 n, ev = TEvent.invoke p2 b2 d2 n → n ≤ b2 := by
  intro d
  induction d with
  | zero =>
    intro q b acc p
    rw [deepResearch_zero]
    apply mem_invocationBody_trace
    · intro p2 b2 d2 n h
      injection h with h1 h2 h3 h4
      subst h2; subst h4
      exact generateSerpQueries_length_le env q acc.learnings b
    · intro st p2 b2 d2 n h
      exact absurd h (by simp)
    · intro s ok p2 b2 d2 n h
      exact absurd h (by simp)
    · intro hg
      exact absurd hg (by omega)
  | succ e ih =>
    intro q b acc p
    rw [deepResearch_succ]
    apply mem_invocationBody_trace
    · intro p2 b2 d2 n h
      injection h with h1 h2 h3 h4
      subst h2; subst h4
      exact generateSerpQueries_length_le env q acc.learnings b
    · intro st p2 b2 d2 n h
      exact absurd h (by simp)
    · intro s ok p2 b2 d2 n h
      exact absurd h (by simp)
    · intro hg q2 a2 i ev hev
      exact ih q2 ((b + 1) / 2) a2 (p ++ [i]) ev hev

/-- C10: `generateSerpQueries` hands back at most the first `numQueries`
pairs of the collaborator's answer (`deep-research.ts`, line 87), so every
invocation of the recursion tree processes at most `breadth` pairs; with
`breadth = 0` no branch is spawned and the call returns the empty
`ResearchResult`. -/
theorem serpQueries_truncated :
    (∀ (env : Env) (q : String) (l : List String) (n : Nat),
      generateSerpQueries env q l n = (env.genQueries q l n).take n ∧
      (generateSerpQueries env q l n).length ≤ n) ∧
    (∀ (env : Env) (d : Nat) (q : String) (b : Nat) (acc : ResearchResult) (p : List Nat),
      ∀ ev ∈ (deepResearch env d q b acc p).trace,
        ∀ p2 b2 d2 n, ev = TEvent.invoke p2 b2 d2 n → n ≤ b2) ∧
    (∀ (env : Env) (d : Nat) (q : String) (acc : ResearchResult) (p : List Nat),
      (deepResearch env d q 0 acc p).result = emptyResult) := by
  refine ⟨?_, ?_, ?_⟩
  · intro env q l n
    exact ⟨rfl, generateSerpQueries_length_le env q l n⟩
  · intro env d
    exact invoke_numQueries_le env d
  · intro env d q acc p
    cases d <;> rfl

def c10env : Env :=
  { genQueries := fun _ _ _ => [⟨"a", "g"⟩, ⟨"b", "g"⟩]
    search := fun _ => none
    extract := fun _ _ => none
    writeReport := fun _ _ => ""
    factCheckModel := fun _ _ => ⟨[], ""⟩ }

/-- Witness for C10: the generator answers 2 pairs when 3 were requested,
the top-level invoke event records 2 used pairs, and 2 ≤ 3. -/
theorem serpQueries_truncated_witness :
    TEvent.invoke [] 3 0 2 ∈ (deepResearch c10env 0 "q" 3 emptyResult []).trace ∧
    (2 : Nat) ≤ 3 :=
  ⟨by decide,
   serpQueries_truncated.2.1 c10env 0 "q" 3 emptyResult []
     (TEvent.invoke [] 3 0 2) (by decide) [] 3 0 2 rfl⟩

/-! ## C5: child breadth and depth along the recursion tree -/

/-- `Math.ceil(breadth / 2)` for a natural `breadth`
(`deep-research.ts`, line 292). -/
def ceilHalf (b : Nat) : Nat := (b + 1) / 2

lemma ceilHalf_iterate (b : Nat) : ∀ n : Nat, ceilHalf^[n] b = (b + 2 ^ n - 1) / 2 ^ n := by
  intro n
  induction n with
  | zero => simp
  | succ m ih =>
    rw [Function.iterate_succ_apply', ih]
    have h1 : 0 < 2 ^ m := pow_pos (by omega) m
    have h2 : b + 2 ^ m - 1 + 2 ^ m = b + 2 ^ (m + 1) - 1 := by
      have := pow_succ 2 m
      omega
    calc ceilHalf ((b + 2 ^ m - 1) / 2 ^ m)
        = ((b + 2 ^ m - 1) / 2 ^ m + 1) / 2 := rfl
      _ = ((b + 2 ^ m - 1 + 2 ^ m) / 2 ^ m) / 2 := by
            rw [Nat.add_div_right _ h1]
      _ = ((b + 2 ^ (m + 1) - 1) / 2 ^ m) / 2 := by rw [h2]
      _ = (b + 2 ^ (m + 1) - 1) / (2 ^ m * 2) := by rw [Nat.div_div_eq_div_mul]
      _ = (b + 2 ^ (m + 1) - 1) / 2 ^ (m + 1) := by rw [pow_succ]

lemma invoke_breadth_depth (env : Env) : ∀ (d : Nat) (q : String) (b : Nat)
    (acc : ResearchResult) (p : List Nat),
    ∀ ev ∈ (deepResearch env d q b acc p).trace,
      ∀ p2 b2 d2 n, ev = TEvent.invoke p2 b2 d2 n →
        p.length ≤ p2.length ∧
        b2 = ceilHalf^[p2.length - p.length] b ∧
        d2 + (p2.length - p.length) = d := by
  intro d
  induction d with
  | zero =>
    intro q b acc p
    rw [deepResearch_zero]
    apply mem_invocationBody_trace
    · intro p2 b2 d2 n h
      injection h with h1 h2 h3 h4
      subst h1; subst h2; subst h3
      simp
    · intro st p2 b2 d2 n h; exact absurd h (by simp)
    · intro s ok p2 b2 d2 n h; exact absurd h (by simp)
    · intro hg; exact absurd hg (by omega)
  | succ e ih =>
    intro q b acc p
    rw [deepResearch_succ]
    apply mem_invocationBody_trace
    · intro p2 b2 d2 n h
      injection h with h1 h2 h3 h4
      subst h1; subst h2; subst h3
      simp
    · intro st p2 b2 d2 n h; exact absurd h (by simp)
    · intro s ok p2 b2 d2 n h; exact absurd h (by simp)
    · intro hg q2 a2 i ev hev p2 b2 d2 n h
      obtain ⟨hlen, hb, hd⟩ := ih q2 ((b + 1) / 2) a2 (p ++ [i]) ev hev p2 b2 d2 n h
      simp only [List.length_append, List.length_singleton] at hlen hb hd
      refine ⟨by omega, ?_, by omega⟩
      have hm : p2.length - p.length = (p2.length - (p.length + 1)) + 1 := by omega
      rw [hm, Function.iterate_succ_apply]
      exact hb

/-- C5: every invocation of the recursion tree reached through `n` levels of
recursion below a top-level call of breadth `b` and depth `d` enters with
breadth `ceil(b / 2^n) = (b + 2^n - 1) / 2^n` and depth `d - n` (each
recursing branch computes `childBreadth = ceil(breadth / 2)` and
`childDepth = depth - 1`, `deep-research.ts`, lines 292-293). -/
theorem child_breadth_depth :
    ∀ (env : Env) (d : Nat) (q : String) (b : Nat) (acc : ResearchResult),
    ∀ ev ∈ (deepResearch env d q b acc []).trace,
      ∀ p2 b2 d2 n, ev = TEvent.invoke p2 b2 d2 n →
        b2 = (b + 2 ^ p2.length - 1) / 2 ^ p2.length ∧
        d2 + p2.length = d := by
  intro env d q b acc ev hev p2 b2 d2 n h
  obtain ⟨hlen, hb, hd⟩ := invoke_breadth_depth env d q b acc [] ev hev p2 b2 d2 n h
  constructor
  · rw [hb]
    simp [ceilHalf_iterate]
  · simpa using hd

def c5env : Env :=
  { genQueries := fun _ _ n => List.replicate n ⟨"Q", "G"⟩
    search := fun _ => some ⟨[]⟩
    extract := fun _ _ => some ⟨[], []⟩
    writeReport := fun _ _ => ""
    factCheckModel := fun _ _ => ⟨[], ""⟩ }

/-- Witness for C5: a top-level call of breadth 3 and depth 2 spawns a child
invocation (path `[0]`) of breadth `ceil(3/2) = 2` and depth 1. -/
theorem child_breadth_depth_witness :
    TEvent.invoke [0] 2 1 2 ∈ (deepResearch c5env 2 "q" 3 emptyResult []).trace ∧
    (2 : Nat) = (3 + 2 ^ (1 : Nat) - 1) / 2 ^ (1 : Nat) ∧ 1 + 1 = 2 := by
  have hm : TEvent.invoke [0] 2 1 2 ∈ (deepResearch c5env 2 "q" 3 emptyResult []).trace := by
    decide
  have h := child_breadth_depth c5env 2 "q" 3 emptyResult _ hm [0] 2 1 2 rfl
  exact ⟨hm, h.1, h.2⟩

/-! ## C1: number of search levels -/

lemma invoke_depth_range (env : Env) : ∀ (d : Nat) (q : String) (b : Nat)
    (acc : ResearchResult) (p : List Nat),
    ∀ ev ∈ (deepResearch env d q b acc p).trace,
      ∀ p2 b2 d2 n, ev = TEvent.invoke p2 b2 d2 n →
        d2 = d ∨ (1 ≤ d2 ∧ d2 < d) := by
  intro d
  induction d with
  | zero =>
    intro q b acc p
    rw [deepResearch_zero]
    apply mem_invocationBody_trace
    · intro p2 b2 d2 n h
      injection h with h1 h2 h3 h4
      omega
    · intro st p2 b2 d2 n h; exact absurd h (by simp)
    · intro s ok p2 b2 d2 n h; exact absurd h (by simp)
    · intro hg; exact absurd hg (by omega)
  | succ e ih =>
    intro q b acc p
    rw [deepResearch_succ]
    apply mem_invocationBody_trace
    · intro p2 b2 d2 n h
      injection h with h1 h2 h3 h4
      omega
    · intro st p2 b2 d2 n h; exact absurd h (by simp)
    · intro s ok p2 b2 d2 n h; exact absurd h (by simp)
    · intro hg q2 a2 i ev hev p2 b2 d2 n h
      have he : 0 < e := by omega
      rcases ih q2 ((b + 1) / 2) a2 (p ++ [i]) ev hev p2 b2 d2 n h with h2 | ⟨h2, h3⟩
      · omega
      · omega

lemma invoke_depth_exists (env : Env)
    (hgen : ∀ s l n, (env.genQueries s l n).length = n)
    (hsearch : ∀ s, ∃ r, env.search s = some r)
    (hextract : ∀ s c, ∃ ex, env.extract s c = some ex) :
    ∀ (d : Nat) (q : String) (b : Nat) (acc : ResearchResult) (p : List Nat), 1 ≤ b →
      (TEvent.invoke p b d b ∈ (deepResearch env d q b acc p).trace) ∧
      (∃ s, TEvent.searched p s true ∈ (deepResearch env d q b acc p).trace) ∧
      (∀ k, 1 ≤ k → k < d →
        ∃ p2 b2 n, TEvent.invoke p2 b2 k n ∈ (deepResearch env d q b acc p).trace) := by
  intro d
  induction d with
  | zero =>
    intro q b acc p hb
    have hlen : (generateSerpQueries env q acc.learnings b).length = b := by
      simp [generateSerpQueries, List.length_take, hgen]
    obtain ⟨sq0, rest, hsqs⟩ : ∃ sq0 rest,
        generateSerpQueries env q acc.learnings b = sq0 :: rest := by
      cases hq : generateSerpQueries env q acc.learnings b with
      | nil => rw [hq] at hlen; simp at hlen; omega
      | cons a l => exact ⟨a, l, rfl⟩
    obtain ⟨r0, hr0⟩ := hsearch sq0.query
    obtain ⟨ex0, hx0⟩ := hextract sq0.query (searchContents r0)
    have hlen2 : (sq0 :: rest).length = b := by rw [← hsqs]; exact hlen
    have hg : ¬ (0 : Nat) - 1 > 0 := by omega
    have hbr := runBranchWith_leaf noChild env b 0 p 0 acc
      (initialProg b 0 (sq0 :: rest)) sq0 r0 ex0 hr0 hx0 hg
    refine ⟨?_, ?_, ?_⟩
    · rw [deepResearch_zero, invocationBody_def, hsqs, hlen2]
      exact List.mem_cons_self _ _
    · refine ⟨sq0.query, ?_⟩
      rw [deepResearch_zero, invocationBody_def, hsqs, runBranchesWith_cons, hbr]
      apply List.mem_cons_of_mem
      apply List.mem_cons_of_mem
      apply List.mem_append_left
      simp
    · intro k hk1 hk2
      exact absurd hk2 (by omega)
  | succ e ih =>
    intro q b acc p hb
    have hlen : (generateSerpQueries env q acc.learnings b).length = b := by
      simp [generateSerpQueries, List.length_take, hgen]
    obtain ⟨sq0, rest, hsqs⟩ : ∃ sq0 rest,
        generateSerpQueries env q acc.learnings b = sq0 :: rest := by
      cases hq : generateSerpQueries env q acc.learnings b with
      | nil => rw [hq] at hlen; simp at hlen; omega
      | cons a l => exact ⟨a, l, rfl⟩
    obtain ⟨r0, hr0⟩ := hsearch sq0.query
    obtain ⟨ex0, hx0⟩ := hextract sq0.query (searchContents r0)
    have hlen2 : (sq0 :: rest).length = b := by rw [← hsqs]; exact hlen
    by_cases he : (e + 1) - 1 > 0
    · have hbr := runBranchWith_recurse
        (fun q2 b2 a2 p2 => deepResearch env e q2 b2 a2 p2) env b (e + 1) p 0 acc
        (initialProg b (e + 1) (sq0 :: rest)) sq0 r0 ex0 hr0 hx0 he
      refine ⟨?_, ?_, ?_⟩
      · rw [deepResearch_succ, invocationBody_def, hsqs, hlen2]
        exact List.mem_cons_self _ _
      · refine ⟨sq0.query, ?_⟩
        rw [deepResearch_succ, invocationBody_def, hsqs, runBranchesWith_cons, hbr]
        apply List.mem_cons_of_mem
        apply List.mem_cons_of_mem
        apply List.mem_append_left
        simp
      · intro k hk1 hk2
        have hbchild : 1 ≤ (b + 1) / 2 := by omega
        have hchild := ih (nextQuery sq0 ex0) ((b + 1) / 2) (branchAcc acc r0 ex0)
          (p ++ [0]) hbchild
        have hmem : ∀ ev ∈ (deepResearch env e (nextQuery sq0 ex0) ((b + 1) / 2)
            (branchAcc acc r0 ex0) (p ++ [0])).trace,
            ev ∈ (deepResearch env (e + 1) q b acc p).trace := by
          intro ev hev
          rw [deepResearch_succ, invocationBody_def, hsqs, runBranchesWith_cons, hbr]
          apply List.mem_cons_of_mem
          apply List.mem_cons_of_mem
          apply List.mem_append_left
          exact List.mem_cons_of_mem _ (List.mem_cons_of_mem _ hev)
        rcases Nat.lt_succ_iff_lt_or_eq.mp hk2 with hlt | heq
        · obtain ⟨p2, b2, n, hin⟩ := hchild.2.2 k hk1 hlt
          exact ⟨p2, b2, n, hmem _ hin⟩
        · subst heq
          exact ⟨p ++ [0], (b + 1) / 2, (b + 1) / 2, hmem _ hchild.1⟩
    · have hbr := runBranchWith_leaf
        (fun q2 b2 a2 p2 => deepResearch env e q2 b2 a2 p2) env b (e + 1) p 0 acc
        (initialProg b (e + 1) (sq0 :: rest)) sq0 r0 ex0 hr0 hx0 he
      refine ⟨?_, ?_, ?_⟩
      · rw [deepResearch_succ, invocationBody_def, hsqs, hlen2]
        exact List.mem_cons_self _ _
      · refine ⟨sq0.query, ?_⟩
        rw [deepResearch_succ, invocationBody_def, hsqs, runBranchesWith_cons, hbr]
        apply List.mem_cons_of_mem
        apply List.mem_cons_of_mem
        apply List.mem_append_left
        simp
      · intro k hk1 hk2
        exact absurd hk2 (by omega)

/-- C1: with a query generator that deterministically returns the requested
number of pairs and always-succeeding search/extraction collaborators, a
call of depth `d` and breadth `b ≥ 1` generates and searches at the top
level (even for `d = 0`), and the entry depths of the invocations actually
performed are exactly `{d} ∪ {k | 1 ≤ k < d}` — i.e. `d` search levels for
`d ≥ 1` and a single level for `d = 0`: the stop check applies to the child
depth, recursion continuing exactly while `depth - 1 > 0`
(`deep-research.ts`, lines 292-295). -/
theorem depth_levels (env : Env) (q : String) (b d : Nat) (acc : ResearchResult)
    (hgen : ∀ s l n, (env.genQueries s l n).length = n)
    (hsearch : ∀ s, ∃ r, env.search s = some r)
    (hextract : ∀ s c, ∃ ex, env.extract s c = some ex)
    (hb : 1 ≤ b) :
    (TEvent.invoke [] b d b ∈ (deepResearch env d q b acc []).trace) ∧
    (∃ s, TEvent.searched [] s true ∈ (deepResearch env d q b acc []).trace) ∧
    (∀ k, (∃ p2 b2 n, TEvent.invoke p2 b2 k n ∈ (deepResearch env d q b acc []).trace) ↔
      (k = d ∨ (1 ≤ k ∧ k < d))) := by
  obtain ⟨h1, h2, h3⟩ := invoke_depth_exists env hgen hsearch hextract d q b acc [] hb
  refine ⟨h1, h2, ?_⟩
  intro k
  constructor
  · rintro ⟨p2, b2, n, hev⟩
    exact invoke_depth_range env d q b acc [] _ hev p2 b2 k n rfl
  · rintro (rfl | ⟨hk1, hk2⟩)
    · exact ⟨[], b, b, h1⟩
    · exact h3 k hk1 hk2

def c1env : Env :=
  { genQueries := fun _ _ n => List.replicate n ⟨"Q", "G"⟩
    search := fun _ => some ⟨[]⟩
    extract := fun _ _ => some ⟨[], []⟩
    writeReport := fun _ _ => ""
    factCheckModel := fun _ _ => ⟨[], ""⟩ }

/-- Witness for C1 at breadth 3, depth 2: the top level invokes at depth 2
and some invocation runs at depth 1, and at depth 0 the call still searches. -/
theorem depth_levels_witness :
    (TEvent.invoke [] 3 2 3 ∈ (deepResearch c1env 2 "q" 3 emptyResult []).trace ∧
      ∃ p2 b2 n, TEvent.invoke p2 b2 1 n ∈ (deepResearch c1env 2 "q" 3 emptyResult []).trace) ∧
    (∃ s, TEvent.searched [] s true ∈ (deepResearch c1env 0 "q" 3 emptyResult []).trace) := by
  have hgen : ∀ s l n, (c1env.genQueries s l n).length = n := fun s l n => by
    simp [c1env]
  have hsearch : ∀ s, ∃ r, c1env.search s = some r := fun s => ⟨⟨[]⟩, rfl⟩
  have hextract : ∀ s c, ∃ ex, c1env.extract s c = some ex := fun s c => ⟨⟨[], []⟩, rfl⟩
  have h2 := depth_levels c1env "q" 3 2 emptyResult hgen hsearch hextract (by omega)
  have h0 := depth_levels c1env "q" 3 0 emptyResult hgen hsearch hextract (by omega)
  exact ⟨⟨h2.1, (h2.2.2 1).mpr (Or.inr ⟨by omega, by omega⟩)⟩, h0.2.1⟩

/-! ## C6: completedQueries across progress notifications -/

/-- The invocation path an event belongs to. -/
def pathOf : TEvent → List Nat
  | .invoke p _ _ _ => p
  | .searched p _ _ => p
  | .report p _ => p

/-- The `completedQueries` values delivered to the progress sink, in
notification order. -/
def reportCQs (tr : List TEvent) : List Nat :=
  tr.filterMap fun ev => match ev with
    | .report _ st => some st.completedQueries
    | _ => none

/-- The `completedQueries` values delivered by one invocation's own
`reportProgress` (its own progress record), in notification order. -/
def ownReportCQs (p : List Nat) (tr : List TEvent) : List Nat :=
  tr.filterMap fun ev => match ev with
    | .report p2 st => if p2 = p then some st.completedQueries else none
    | _ => none

/-- A list of naturals is non-decreasing. -/
def nondecreasing : List Nat → Bool
  | [] => true
  | [_] => true
  | a :: b :: t => decide (a ≤ b) && nondecreasing (b :: t)

def c6env : Env :=
  { genQueries := fun _ _ _ => [⟨"Q", "G"⟩]
    search := fun _ => some ⟨[]⟩
    extract := fun _ _ => some ⟨[], []⟩
    writeReport := fun _ _ => ""
    factCheckModel := fun _ _ => ⟨[], ""⟩ }

/-- Counterexample to C6 as stated: with breadth 1 and depth 2 (one branch
per level, every collaborator succeeding) the sink sees `completedQueries`
values 0, 1, 0, 1 — the recursive invocation creates a fresh progress record
starting at 0 (`deep-research.ts`, line 244), so the sequence across the
whole call drops back and is not monotonically non-decreasing. -/
theorem completedQueries_not_monotone :
    reportCQs (deepResearch c6env 2 "q" 1 emptyResult []).trace = [0, 1, 0, 1] ∧
    nondecreasing (reportCQs (deepResearch c6env 2 "q" 1 emptyResult []).trace) = false := by
  exact ⟨by decide, by decide⟩

lemma trace_paths (env : Env) : ∀ (d : Nat) (q : String) (b : Nat)
    (acc : ResearchResult) (p : List Nat),
    ∀ ev ∈ (deepResearch env d q b acc p).trace, p <+: pathOf ev := by
  intro d
  induction d with
  | zero =>
    intro q b acc p
    rw [deepResearch_zero]
    apply mem_invocationBody_trace
    · simp [pathOf]
    · intro st; simp [pathOf]
    · intro s ok; simp [pathOf]
    · intro hg; exact absurd hg (by omega)
  | succ e ih =>
    intro q b acc p
    rw [deepResearch_succ]
    apply mem_invocationBody_trace
    · simp [pathOf]
    · intro st; simp [pathOf]
    · intro s ok; simp [pathOf]
    · intro hg q2 a2 i ev hev
      exact (List.prefix_append p [i]).trans (ih q2 ((b + 1) / 2) a2 (p ++ [i]) ev hev)

lemma ownReportCQs_append (p : List Nat) (t1 t2 : List TEvent) :
    ownReportCQs p (t1 ++ t2) = ownReportCQs p t1 ++ ownReportCQs p t2 :=
  List.filterMap_append t1 t2 _

lemma ownReportCQs_nil_of_strict (p : List Nat) (tr : List TEvent)
    (h : ∀ ev ∈ tr, pathOf ev ≠ p) : ownReportCQs p tr = [] := by
  unfold ownReportCQs
  rw [List.filterMap_eq_nil_iff]
  intro ev hev
  cases ev with
  | invoke p2 b2 d2 n => rfl
  | searched p2 s ok => rfl
  | report p2 st =>
    have hne : p2 ≠ p := h (.report p2 st) hev
    simp [hne]

lemma child_no_own_reports (env : Env) (d : Nat) (q2 : String) (b2 : Nat)
    (a2 : ResearchResult) (p : List Nat) (i : Nat) :
    ownReportCQs p (deepResearch env d q2 b2 a2 (p ++ [i])).trace = [] := by
  apply ownReportCQs_nil_of_strict
  intro ev hev
  have h := trace_paths env d q2 b2 a2 (p ++ [i]) ev hev
  intro hcontra
  rw [hcontra] at h
  have := h.length_le
  simp at this

lemma ownReportCQs_cons_invoke (p p2 : List Nat) (b2 d2 n : Nat) (tr : List TEvent) :
    ownReportCQs p (.invoke p2 b2 d2 n :: tr) = ownReportCQs p tr := rfl

lemma ownReportCQs_cons_report_self (p : List Nat) (st : ResearchProgress)
    (tr : List TEvent) :
    ownReportCQs p (.report p st :: tr) = st.completedQueries :: ownReportCQs p tr := by
  simp [ownReportCQs, List.filterMap_cons]

lemma nondecreasing_cons_cons (a b : Nat) (l : List Nat) :
    nondecreasing (a :: b :: l) = true ↔ a ≤ b ∧ nondecreasing (b :: l) = true := by
  simp [nondecreasing]

/-- `NDUpTo c l c2`: `c :: l` is non-decreasing and all of it is at most `c2`. -/
def NDUpTo (c : Nat) (l : List Nat) (c2 : Nat) : Prop :=
  nondecreasing (c :: l) = true ∧ c ≤ c2 ∧ ∀ x ∈ l, x ≤ c2

lemma NDUpTo_cons (c a c2 : Nat) (l : List Nat) (hca : c ≤ a)
    (h : NDUpTo a l c2) : NDUpTo c (a :: l) c2 := by
  obtain ⟨hn, hc, hb⟩ := h
  refine ⟨?_, le_trans hca hc, ?_⟩
  · rw [nondecreasing_cons_cons]; exact ⟨hca, hn⟩
  · intro x hx
    rcases List.mem_cons.mp hx with rfl | hx2
    · exact hc
    · exact hb x hx2

lemma NDUpTo_append : ∀ (l1 : List Nat) (c c1 c2 : Nat) (l2 : List Nat),
    NDUpTo c l1 c1 → NDUpTo c1 l2 c2 → NDUpTo c (l1 ++ l2) c2 := by
  intro l1
  induction l1 with
  | nil =>
    intro c c1 c2 l2 h1 h2
    obtain ⟨hn1, hc1, hb1⟩ := h1
    obtain ⟨hn2, hc2, hb2⟩ := h2
    cases l2 with
    | nil => exact ⟨rfl, le_trans hc1 hc2, by simp⟩
    | cons y t =>
      rw [nondecreasing_cons_cons] at hn2
      refine ⟨?_, le_trans hc1 hc2, ?_⟩
      · rw [show (([] : List Nat) ++ y :: t) = y :: t by rfl, nondecreasing_cons_cons]
        exact ⟨le_trans hc1 hn2.1, hn2.2⟩
      · intro x hx
        exact hb2 x (by simpa using hx)
  | cons a t ih =>
    intro c c1 c2 l2 h1 h2
    obtain ⟨hn1, hc1, hb1⟩ := h1
    rw [nondecreasing_cons_cons] at hn1
    have hat : NDUpTo a t c1 := ⟨hn1.2, hb1 a (by simp), fun x hx => hb1 x (by simp [hx])⟩
    exact NDUpTo_cons c a c2 (t ++ l2) hn1.1 (ih a c1 c2 l2 hat h2)

lemma runBranchWith_ownCQs (child : String → Nat → ResearchResult → List Nat → InvOut)
    (env : Env) (b dep : Nat) (p : List Nat) (idx : Nat)
    (acc : ResearchResult) (prog : ResearchProgress) (sq : SerpQuery)
    (hc : dep - 1 > 0 → ∀ q2 a2,
      ownReportCQs p (child q2 ((b + 1) / 2) a2 (p ++ [idx])).trace = []) :
    NDUpTo prog.completedQueries
      (ownReportCQs p (runBranchWith child env b dep p idx acc prog sq).trace)
      (runBranchWith child env b dep p idx acc prog sq).prog.completedQueries := by
  rcases runBranchWith_trace_shape child env b dep p idx acc prog sq with
    ⟨h1, heq⟩ | ⟨r, h1, h2, heq⟩ | ⟨r, ex, h1, h2, hg, heq⟩ | ⟨r, ex, h1, h2, hg, heq⟩ <;>
      rw [heq]
  · exact ⟨rfl, le_refl _, by simp [ownReportCQs]⟩
  · exact ⟨rfl, le_refl _, by simp [ownReportCQs]⟩
  · have hown : ownReportCQs p (TEvent.searched p sq.query true ::
        TEvent.report p (applyUpdate prog (recurseUpdate b dep sq prog)) ::
        (child (nextQuery sq ex) ((b + 1) / 2) (branchAcc acc r ex) (p ++ [idx])).trace) =
        (prog.completedQueries + 1) ::
          ownReportCQs p (child (nextQuery sq ex) ((b + 1) / 2) (branchAcc acc r ex)
            (p ++ [idx])).trace := by
      simp [ownReportCQs, List.filterMap_cons, applyUpdate, recurseUpdate]
    rw [show ownReportCQs p (TEvent.searched p sq.query true ::
        TEvent.report p (applyUpdate prog (recurseUpdate b dep sq prog)) ::
        (child (nextQuery sq ex) ((b + 1) / 2) (branchAcc acc r ex) (p ++ [idx])).trace) =
        (prog.completedQueries + 1) ::
          ownReportCQs p (child (nextQuery sq ex) ((b + 1) / 2) (branchAcc acc r ex)
            (p ++ [idx])).trace from hown, hc hg (nextQuery sq ex) (branchAcc acc r ex)]
    refine ⟨?_, ?_, ?_⟩
    · simp [nondecreasing]
    · simp [applyUpdate, recurseUpdate]
    · intro x hx
      rcases List.mem_singleton.mp hx with rfl
      simp [applyUpdate, recurseUpdate]
  · have hown : ownReportCQs p [TEvent.searched p sq.query true,
        TEvent.report p (applyUpdate prog (leafUpdate sq prog))] =
        [prog.completedQueries + 1] := by
      simp [ownReportCQs, List.filterMap_cons, applyUpdate, leafUpdate]
    rw [hown]
    refine ⟨?_, ?_, ?_⟩
    · simp [nondecreasing]
    · simp [applyUpdate, leafUpdate]
    · intro x hx
      rcases List.mem_singleton.mp hx with rfl
      simp [applyUpdate, leafUpdate]

lemma runBranchesWith_trace_cons (child : String → Nat → ResearchResult → List Nat → InvOut)
    (env : Env) (b dep : Nat) (p : List Nat) (idx : Nat)
    (acc : ResearchResult) (prog : ResearchProgress) (sq : SerpQuery)
    (rest : List SerpQuery) :
    (runBranchesWith child env b dep p idx acc prog (sq :: rest)).trace =
      (runBranchWith child env b dep p idx acc prog sq).trace ++
      (runBranchesWith child env b dep p (idx + 1)
        (runBranchWith child env b dep p idx acc prog sq).acc
        (runBranchWith child env b dep p idx acc prog sq).prog rest).trace := rfl

lemma runBranchesWith_prog_cons (child : String → Nat → ResearchResult → List Nat → InvOut)
    (env : Env) (b dep : Nat) (p : List Nat) (idx : Nat)
    (acc : ResearchResult) (prog : ResearchProgress) (sq : SerpQuery)
    (rest : List SerpQuery) :
    (runBranchesWith child env b dep p idx acc prog (sq :: rest)).prog =
      (runBranchesWith child env b dep p (idx + 1)
        (runBranchWith child env b dep p idx acc prog sq).acc
        (runBranchWith child env b dep p idx acc prog sq).prog rest).prog := rfl

lemma runBranchesWith_ownCQs (child : String → Nat → ResearchResult → List Nat → InvOut)
    (env : Env) (b dep : Nat) (p : List Nat)
    (hc : dep - 1 > 0 → ∀ q2 a2 i,
      ownReportCQs p (child q2 ((b + 1) / 2) a2 (p ++ [i])).trace = []) :
    ∀ (sqs : List SerpQuery) (idx : Nat) (acc : ResearchResult) (prog : ResearchProgress),
      NDUpTo prog.completedQueries
        (ownReportCQs p (runBranchesWith child env b dep p idx acc prog sqs).trace)
        (runBranchesWith child env b dep p idx acc prog sqs).prog.completedQueries := by
  intro sqs
  induction sqs with
  | nil =>
    intro idx acc prog
    rw [runBranchesWith_nil]
    exact ⟨rfl, le_refl _, by simp [ownReportCQs]⟩
  | cons sq rest ih =>
    intro idx acc prog
    rw [runBranchesWith_trace_cons, runBranchesWith_prog_cons, ownReportCQs_append]
    exact NDUpTo_append _ _ _ _ _
      (runBranchWith_ownCQs child env b dep p idx acc prog sq
        (fun hg q2 a2 => hc hg q2 a2 idx))
      (ih (idx + 1) _ _)

lemma invocationBody_trace (child : String → Nat → ResearchResult → List Nat → InvOut)
    (env : Env) (q : String) (b dep : Nat) (acc : ResearchResult) (p : List Nat) :
    (invocationBody child env q b dep acc p).trace =
      TEvent.invoke p b dep (generateSerpQueries env q acc.learnings b).length ::
      TEvent.report p (initialProg b dep (generateSerpQueries env q acc.learnings b)) ::
      (runBranchesWith child env b dep p 0 acc
        (initialProg b dep (generateSerpQueries env q acc.learnings b))
        (generateSerpQueries env q acc.learnings b)).trace := rfl

/-- C6 amended: within one invocation — over the notifications made through
that invocation's own progress record — `completedQueries` is monotonically
non-decreasing; the original tree-wide claim fails because every recursive
invocation starts a fresh record at 0. -/
theorem completedQueries_monotone_per_invocation :
    ∀ (env : Env) (d : Nat) (q : String) (b : Nat) (acc : ResearchResult) (p : List Nat),
      nondecreasing (ownReportCQs p (deepResearch env d q b acc p).trace) = true := by
  intro env d q b acc p
  cases d with
  | zero =>
    rw [deepResearch_zero, invocationBody_trace, ownReportCQs_cons_invoke,
      ownReportCQs_cons_report_self]
    have hc : (0 : Nat) - 1 > 0 → ∀ q2 a2 i,
        ownReportCQs p (noChild q2 ((b + 1) / 2) a2 (p ++ [i])).trace = [] := by
      intro hg; exact absurd hg (by omega)
    exact (runBranchesWith_ownCQs noChild env b 0 p hc
      (generateSerpQueries env q acc.learnings b) 0 acc
      (initialProg b 0 (generateSerpQueries env q acc.learnings b))).1
  | succ e =>
    rw [deepResearch_succ, invocationBody_trace, ownReportCQs_cons_invoke,
      ownReportCQs_cons_report_self]
    have hc : (e + 1) - 1 > 0 → ∀ q2 a2 i,
        ownReportCQs p ((fun q2 b2 a2 p2 => deepResearch env e q2 b2 a2 p2)
          q2 ((b + 1) / 2) a2 (p ++ [i])).trace = [] := by
      intro hg q2 a2 i
      exact child_no_own_reports env e q2 ((b + 1) / 2) a2 p i
    exact (runBranchesWith_ownCQs _ env b (e + 1) p hc
      (generateSerpQueries env q acc.learnings b) 0 acc
      (initialProg b (e + 1) (generateSerpQueries env q acc.learnings b))).1

/-! ## C2: permit counting -/

lemma activeCount_cons (t : BTask) (l : List BTask) :
    activeCount (t :: l) = (if t.holdsPermit then 1 else 0) + activeCount l := by
  unfold activeCount
  rw [List.filter_cons]
  cases h : t.holdsPermit
  · simp [h]
  · simp [h, Nat.add_comm]

lemma activeCount_set : ∀ (ts : List BTask) (i : Nat) (t0 t' : BTask),
    ts.get? i = some t0 →
    activeCount (ts.set i t') + (if t0.holdsPermit then 1 else 0) =
      activeCount ts + (if t'.holdsPermit then 1 else 0) := by
  intro ts
  induction ts with
  | nil => intro i t0 t' h; simp at h
  | cons a l ih =>
    intro i t0 t' h
    cases i with
    | zero =>
      simp only [List.get?] at h
      injection h with h
      subst h
      simp only [List.set, activeCount_cons]
      omega
    | succ j =>
      simp only [List.get?] at h
      have := ih j t0 t' h
      simp only [List.set, activeCount_cons]
      omega

lemma tasksGateOk_get : ∀ (ts : List BTask) (i : Nat) (t0 : BTask),
    ts.get? i = some t0 → tasksGateOk ts = true → t0.gateOk = true := by
  intro ts
  induction ts with
  | nil => intro i t0 h; simp at h
  | cons a l ih =>
    intro i t0 h hok
    simp only [tasksGateOk, Bool.and_eq_true] at hok
    cases i with
    | zero =>
      simp only [List.get?] at h
      injection h with h
      subst h
      exact hok.1
    | succ j =>
      simp only [List.get?] at h
      exact ih j t0 h hok.2

lemma tasksGateOk_set : ∀ (ts : List BTask) (i : Nat) (t' : BTask),
    tasksGateOk ts = true → t'.gateOk = true → tasksGateOk (ts.set i t') = true := by
  intro ts
  induction ts with
  | nil => intro i t' h1 h2; exact h1
  | cons a l ih =>
    intro i t' h1 h2
    simp only [tasksGateOk, Bool.and_eq_true] at h1
    cases i with
    | zero =>
      simp only [List.set, tasksGateOk, Bool.and_eq_true]
      exact ⟨h2, h1.2⟩
    | succ j =>
      simp only [List.set, tasksGateOk, Bool.and_eq_true]
      exact ⟨h1.1, ih j t' h1.2 h2⟩

lemma activeCount_replicate_waiting : ∀ n, activeCount (List.replicate n .waiting) = 0 := by
  intro n
  induction n with
  | zero => rfl
  | succ m ih =>
    rw [List.replicate_succ, activeCount_cons]
    simp [BTask.holdsPermit, ih]

lemma tasksGateOk_replicate_waiting : ∀ n, tasksGateOk (List.replicate n .waiting) = true := by
  intro n
  induction n with
  | zero => rfl
  | succ m ih =>
    rw [List.replicate_succ]
    simp only [tasksGateOk, Bool.and_eq_true]
    exact ⟨rfl, ih⟩

lemma stateOk_preserved : ∀ s t, GStep s t → stateOk s = true → stateOk t = true := by
  intro s t hstep
  induction hstep with
  | start b d ts i hw hcap =>
    intro hok
    simp only [stateOk, Bool.and_eq_true, decide_eq_true_eq] at hok ⊢
    obtain ⟨hact, hts⟩ := hok
    constructor
    · have := activeCount_set ts i .waiting .searching hw
      simp [BTask.holdsPermit] at this
      simp only [ConcurrencyLimit] at hcap ⊢
      omega
    · exact tasksGateOk_set ts i .searching hts rfl
  | finishBranch b d ts i hs =>
    intro hok
    simp only [stateOk, Bool.and_eq_true, decide_eq_true_eq] at hok ⊢
    obtain ⟨hact, hts⟩ := hok
    constructor
    · have := activeCount_set ts i .searching .finished hs
      simp [BTask.holdsPermit] at this
      omega
    · exact tasksGateOk_set ts i .finished hts rfl
  | recurse b d ts i hs hd =>
    intro hok
    simp only [stateOk, Bool.and_eq_true, decide_eq_true_eq] at hok ⊢
    obtain ⟨hact, hts⟩ := hok
    constructor
    · have := activeCount_set ts i .searching
        (.recursing ((b + 1) / 2) (d - 1) (List.replicate ((b + 1) / 2) .waiting)) hs
      simp [BTask.holdsPermit] at this
      omega
    · apply tasksGateOk_set ts i _ hts
      simp only [BTask.gateOk, Bool.and_eq_true, decide_eq_true_eq]
      exact ⟨by rw [activeCount_replicate_waiting]; omega,
        tasksGateOk_replicate_waiting _⟩
  | childStep b d ts i cb cd cts cts2 hr hcstep ih =>
    intro hok
    simp only [stateOk, Bool.and_eq_true, decide_eq_true_eq] at hok ⊢
    obtain ⟨hact, hts⟩ := hok
    have hchild : (BTask.recursing cb cd cts).gateOk = true := tasksGateOk_get ts i _ hr hts
    simp only [BTask.gateOk, Bool.and_eq_true, decide_eq_true_eq] at hchild
    have hchild2 : stateOk (cb, cd, cts2) = true := by
      apply ih
      simp only [stateOk, Bool.and_eq_true, decide_eq_true_eq]
      exact hchild
    simp only [stateOk, Bool.and_eq_true, decide_eq_true_eq] at hchild2
    constructor
    · have := activeCount_set ts i (.recursing cb cd cts) (.recursing cb cd cts2) hr
      simp [BTask.holdsPermit] at this
      omega
    · apply tasksGateOk_set ts i _ hts
      simp only [BTask.gateOk, Bool.and_eq_true, decide_eq_true_eq]
      exact hchild2
  | childDone b d ts i cb cd cts hr hdone =>
    intro hok
    simp only [stateOk, Bool.and_eq_true, decide_eq_true_eq] at hok ⊢
    obtain ⟨hact, hts⟩ := hok
    constructor
    · have := activeCount_set ts i (.recursing cb cd cts) .finished hr
      simp [BTask.holdsPermit] at this
      omega
    · exact tasksGateOk_set ts i .finished hts rfl

/-- A state of the run of `deepResearch(q, 3, 2)` in which three permits are
held at once: two branches of the top invocation hold its gate's two permits
(one searching, one recursing), while a branch of the child invocation holds
a permit of the child's own fresh gate. -/
def sBad : GState :=
  (3, 2, [.recursing 2 1 [.searching, .waiting], .searching, .waiting])

lemma reach_sBad : GReach (initState 3 2) sBad := by
  have h1 : GStep (initState 3 2) (3, 2, [.searching, .waiting, .waiting]) := by
    have h := GStep.start 3 2 [.waiting, .waiting, .waiting] 0 rfl (by decide)
    simpa [initState] using h
  have h2 : GStep (3, 2, [.searching, .waiting, .waiting])
      (3, 2, [.searching, .searching, .waiting]) := by
    have h := GStep.start 3 2 [.searching, .waiting, .waiting] 1 rfl (by decide)
    simpa using h
  have h3 : GStep (3, 2, [.searching, .searching, .waiting])
      (3, 2, [.recursing 2 1 [.waiting, .waiting], .searching, .waiting]) := by
    have h := GStep.recurse 3 2 [.searching, .searching, .waiting] 0 rfl (by omega)
    simpa using h
  have h4 : GStep (3, 2, [.recursing 2 1 [.waiting, .waiting], .searching, .waiting]) sBad := by
    have hc := GStep.start 2 1 [.waiting, .waiting] 0 rfl (by decide)
    have h := GStep.childStep 3 2 [.recursing 2 1 [.waiting, .waiting], .searching, .waiting]
      0 2 1 [.waiting, .waiting] ([.waiting, .waiting].set 0 .searching) rfl hc
    simpa [sBad] using h
  exact Relation.ReflTransGen.head h1 (Relation.ReflTransGen.head h2
    (Relation.ReflTransGen.head h3 (Relation.ReflTransGen.single h4)))

/-- Counterexample to C2 as stated: the gate is instantiated afresh inside
every `deepResearch` invocation (`deep-research.ts`, line 269), so with
breadth 3 and depth 2 a state is reachable in which 3 permits are held at
once across the recursion tree — more than the configured capacity
`ConcurrencyLimit = 2`. -/
theorem gate_not_treewide :
    GReach (initState 3 2) sBad ∧ ConcurrencyLimit < treePermits sBad := by
  refine ⟨reach_sBad, ?_⟩
  simp [sBad, treePermits, permitsList, BTask.permits, ConcurrencyLimit]

/-- C2 amended: in every reachable state of a run, each invocation's own
gate admits at most `ConcurrencyLimit` simultaneously running branch tasks —
the bound holds per invocation, not across the whole recursion tree. -/
theorem gate_per_invocation_bound :
    ∀ (b d : Nat) (s : GState), GReach (initState b d) s → stateOk s = true := by
  intro b d s h
  induction h with
  | refl =>
    simp only [stateOk, initState, Bool.and_eq_true, decide_eq_true_eq]
    exact ⟨by rw [activeCount_replicate_waiting]; omega, tasksGateOk_replicate_waiting b⟩
  | tail hsteps hstep ih =>
    exact stateOk_preserved _ _ hstep ih

/-- Witness for the amended C2 at the initial state of a breadth-3 depth-2
run. -/
theorem gate_per_invocation_bound_witness : stateOk (initState 3 2) = true :=
  gate_per_invocation_bound 3 2 (initState 3 2) Relation.ReflTransGen.refl
